import Mathlib

/-!
Verification of the `ctapipe_io_lst` core modules: a shallow embedding of
`multifiles.py` (the k-way event-id stream merger), `event_time.py`
(the per-telescope event time reconciliation engine) and
`anyarray_dtypes.py` (raw counter decoding).

Times are modelled as exact rationals (the Python code uses IEEE doubles;
the algorithmic control flow is what is verified here).  The float `nan`
used by the code as "no time available" is modelled as `Option ℚ` with
`none` playing the role of `nan`; a comparison against `nan` is `False`,
exactly as in IEEE semantics.
-/

namespace CtapipeIoLst

/-! ## `anyarray_dtypes.py`: counter decoding -/

/-- `parse_tib_10MHz_counter` from `anyarray_dtypes.py`:
`counter[0] + (counter[1] << 8) + (counter[2] << 16)`.  The raw field is
`('tenMHz_counter', (np.uint8, 3))` in `TIB_DTYPE` of the same file and
the function applies no widening cast, so numpy evaluates every shift and
addition in uint8: each intermediate result is reduced modulo `2 ^ 8`. -/
def parse_tib_10MHz_counter (counter : Fin 3 → ℕ) : ℕ :=
  ((counter 0 + (counter 1 <<< 8) % 2 ^ 8) % 2 ^ 8
    + (counter 2 <<< 16) % 2 ^ 8) % 2 ^ 8

/-! ## `multifiles.py`: the stream merger

Each `protozfits` file is modelled as the list of its event ids together
with its (optional) `CameraConfig` record and a read cursor; `next()` on
the `Events` iterator yields the event at the cursor and advances it,
`rewind()` resets the cursor only. -/

/-- One opened file: the `Events` table (event ids in file order), the
`CameraConfig` record when the file has a non-empty one, and the iterator
cursor of the `Events` table. -/
structure SubFile where
  events : List ℤ
  camera_config : Option ℤ
  cursor : ℕ
  deriving Repr, DecidableEq

/-- `next(file.Events)`: yield the record at the cursor and advance, or
signal `StopIteration` (`none`) when exhausted. -/
def SubFile.next (f : SubFile) : Option (ℤ × SubFile) :=
  match f.events.get? f.cursor with
  | some v => some (v, { f with cursor := f.cursor + 1 })
  | none => none

/-- `file.Events.protobuf_i_fits.rewind()`: reset the cursor, nothing else. -/
def SubFile.rewind (f : SubFile) : SubFile :=
  { f with cursor := 0 }

/-- One substream handle of `MultiFiles`: the buffered current event
(`self._events[path]`, `none` once the entry has been deleted or was never
created) and the underlying file (`self._file[path]`). -/
structure SubStream where
  buffered : Option ℤ
  file : SubFile
  deriving Repr, DecidableEq

/-- Errors raised by `MultiFiles.__init__`. -/
inductive MFError where
  | emptyInput
  | configurationMissing
  deriving Repr, DecidableEq

/-- The `MultiFiles` object: the substream handles in registration
(= `paths`) order and the canonical `camera_config`. -/
structure MultiFiles where
  streams : List SubStream
  camera_config : ℤ
  deriving Repr, DecidableEq

/-- `min(self._events.items(), key=lambda item: item[1].event_id)`:
index and event id of the first stream whose buffered event id is minimal
among all streams with a buffered event (`Python `min` keeps the earliest
item on ties, and dict iteration order is registration order). -/
def minEventStream : List SubStream → Option (ℕ × ℤ)
  | [] => none
  | st :: rest =>
    match st.buffered with
    | none => (minEventStream rest).map fun p => (p.1 + 1, p.2)
    | some v =>
      match minEventStream rest with
      | some (i, w) => if w < v then some (i + 1, w) else some (0, v)
      | none => some (0, v)

/-- `MultiFiles.__init__(paths)`: a path is modelled by what reading it
yields, the pair (event ids, optional camera config).  For each path the
first event is buffered (`StopIteration` on an empty file skips the rest
of the `try` body, so such a file contributes neither a buffered event
nor a config record); fails when `paths` is empty or when no file
yielded a `CameraConfig`; the canonical config is the first one found. -/
def MultiFiles.init (paths : List (List ℤ × Option ℤ)) : Except MFError MultiFiles :=
  if paths.length = 0 then
    .error .emptyInput
  else
    let streams : List SubStream := paths.map fun p =>
      { buffered := p.1.head?
        file := { events := p.1, camera_config := p.2
                  cursor := if p.1.isEmpty then 0 else 1 } }
    match paths.filterMap (fun p => if p.1.isEmpty then none else p.2) with
    | [] => .error .configurationMissing
    | c :: _ => .ok { streams := streams, camera_config := c }

/-- Refilling one substream's buffer after its event was returned:
`self._events[min_path] = next(self._file[min_path].Events)`, with the
`StopIteration` handler deleting the entry instead. -/
def SubStream.advance (st : SubStream) : SubStream :=
  match st.file.next with
  | some p => ⟨some p.1, p.2⟩
  | none => ⟨none, st.file⟩

/-- `MultiFiles.next_event`: `StopIteration` (`none`) when no stream has a
buffered event; otherwise return the minimal buffered event id and refill
that stream's buffer from its reader, dropping the stream from
consideration (`del self._events[min_path]`) when the reader is
exhausted. -/
def MultiFiles.next_event (m : MultiFiles) : Option (ℤ × MultiFiles) :=
  match minEventStream m.streams with
  | none => none
  | some (i, v) =>
    let st := m.streams.getD i ⟨none, ⟨[], none, 0⟩⟩
    some (v, { m with streams := m.streams.set i st.advance })

/-- `MultiFiles.rewind`: rewind every file's cursor; the buffered events
(`self._events`) are left untouched and no file is reopened. -/
def MultiFiles.rewind (m : MultiFiles) : MultiFiles :=
  { m with streams := m.streams.map fun st => ⟨st.buffered, st.file.rewind⟩ }

/-- Iterating the merger: the event-id sequence produced by repeated
`next_event` calls (`fuel` bounds the number of iterations; the merger
itself is finite, so any sufficiently large fuel drains it). -/
def MultiFiles.drain (m : MultiFiles) : ℕ → List ℤ
  | 0 => []
  | fuel + 1 =>
    match m.next_event with
    | none => []
    | some (v, m') => v :: m'.drain fuel

/-- Like `drain` but also returning the final merger state. -/
def MultiFiles.drainAll (m : MultiFiles) : ℕ → List ℤ × MultiFiles
  | 0 => ([], m)
  | fuel + 1 =>
    match m.next_event with
    | none => ([], m)
    | some (v, m') =>
      let r := m'.drainAll fuel
      (v :: r.1, r.2)

/-- Events still to be emitted by one substream: the buffered one followed
by the not-yet-read part of the file; a stream without a buffered event is
out of `self._events` and is never read again, so nothing is pending. -/
def SubStream.pending (st : SubStream) : List ℤ :=
  match st.buffered with
  | some v => v :: st.file.events.drop st.file.cursor
  | none => []

/-- Every substream's pending sequence is sorted (non-decreasing). -/
def MultiFiles.Sorted (m : MultiFiles) : Prop :=
  ∀ st ∈ m.streams, List.Chain' (· ≤ ·) st.pending

/-- `v` lower-bounds every pending event of the merger. -/
def MultiFiles.LB (v : ℤ) (m : MultiFiles) : Prop :=
  ∀ st ∈ m.streams, ∀ x ∈ st.pending, v ≤ x

/-! ## `event_time.py`: the event time reconciliation engine

One telescope of `EventTimeCalculator` is modelled (the per-`tel_id`
dictionaries are independent of each other, so the state below is the
projection of the object onto one `tel_id`). -/

/-- The value of the `timestamp` trait, an `Enum(['ucts', 'dragon', 'tib'])`. -/
inductive TimestampSource where
  | ucts
  | dragon
  | tib
  deriving Repr, DecidableEq

/-- The configuration traits of `EventTimeCalculator` for one telescope. -/
structure CalcConfig where
  timestamp : TimestampSource
  ucts_t0_dragon : Option ℤ
  dragon_counter0 : Option ℤ
  ucts_t0_tib : Option ℤ
  tib_counter0 : Option ℤ
  dragon_module_id : ℕ
  use_first_event : Bool
  deriving Repr, DecidableEq

/-- The mutable per-telescope state of `EventTimeCalculator`: the two
correction deques and the clock references. -/
structure CalcState where
  previous_ucts_timestamps : List ℤ
  previous_ucts_trigger_types : List ℤ
  has_dragon_reference : Bool
  has_tib_reference : Bool
  ucts_t0_dragon : Option ℤ
  dragon_counter0 : Option ℤ
  ucts_t0_tib : Option ℤ
  tib_counter0 : Option ℤ
  deriving Repr, DecidableEq

/-- The fields of `event.lst.tel[tel_id]` (and `event.index`) read or
written by `EventTimeCalculator.__call__`.  Counter arrays are indexed by
module index as in the `svc.module_ids` table. -/
structure LSTEvent where
  obs_id : ℤ
  event_id : ℤ
  module_ids : List ℕ
  pps_counter : List ℤ
  tenMHz_counter : List ℤ
  extdevices_presence : ℕ
  ucts_timestamp : ℤ
  ucts_trigger_type : ℤ
  tib_pps_counter : ℤ
  tib_tenMHz_counter : ℤ
  tib_masked_trigger : ℤ
  deriving Repr, DecidableEq

/-- Errors raised by `EventTimeCalculator` (`IndexError` from the module
lookup, the two `ValueError`s). -/
inductive CalcError where
  | moduleNotFound
  | missingReference
  | unknownTimestamp
  deriving Repr, DecidableEq

/-- Log records emitted by `EventTimeCalculator`, with the data
interpolated into the corresponding message. -/
inductive LogEntry where
  | warnNoRef
  | warnUctsUnavailable (obs_id : ℤ) (event_id : ℤ)
  | criticalDragonRef (ucts_timestamp : ℤ) (dragon_counter : ℤ)
  | criticalTibRef (ucts_timestamp : ℤ) (tib_counter : ℤ)
  | warnUctsJump (event_id : ℤ) (dragon_time : ℚ) (delta_us : ℚ)
  | warnJumpNoTib
  deriving Repr, DecidableEq

/-- The external reference pair for the Dragon clock is supplied. -/
def hasDragonPair (c : CalcConfig) : Bool :=
  c.ucts_t0_dragon.isSome && c.dragon_counter0.isSome

/-- The external reference pair for the TIB clock is supplied. -/
def hasTibPair (c : CalcConfig) : Bool :=
  c.ucts_t0_tib.isSome && c.tib_counter0.isSome

/-- The expressions `self.timestamp == "dragon"` (event_time.py line 196),
`self.timestamp == "tib"` (line 197) and `self.timestamp == 'tib'`
(line 250): unlike every other read of this trait in the file, they access
`self.timestamp` without `.tel[tel_id]`, which yields the
`TelescopeParameter` lookup object rather than the configured string, so
the comparison is always `False` whatever the configuration says. -/
def timestampTraitEqStr (_c : CalcConfig) (_s : String) : Bool :=
  false

/-- The per-telescope state established by `EventTimeCalculator.__init__`:
reference flags and values from the supplied trait pairs, empty queues. -/
def EventTimeCalculator.initState (c : CalcConfig) : CalcState :=
  { previous_ucts_timestamps := []
    previous_ucts_trigger_types := []
    has_dragon_reference := hasDragonPair c
    has_tib_reference := hasTibPair c
    ucts_t0_dragon := c.ucts_t0_dragon
    dragon_counter0 := c.dragon_counter0
    ucts_t0_tib := c.ucts_t0_tib
    tib_counter0 := c.tib_counter0 }

/-- `EventTimeCalculator.__init__` for one telescope.  The guard that is
meant to raise `ValueError` (or warn) when the selected timestamp source
lacks its reference pair compares the bare trait to a string
(`timestampTraitEqStr`) and is therefore dead: construction always
succeeds and never warns. -/
def EventTimeCalculator.init (c : CalcConfig) :
    Except CalcError (CalcState × List LogEntry) :=
  if (timestampTraitEqStr c "dragon" && !hasDragonPair c)
      || (timestampTraitEqStr c "tib" && !hasTibPair c) then
    if !c.use_first_event then
      .error .missingReference
    else
      .ok (EventTimeCalculator.initState c, [.warnNoRef])
  else
    .ok (EventTimeCalculator.initState c, [])

/-- `calc_dragon_time` from `event_time.py`:
`reference + pps_counter[module_index] + tenMHz_counter[module_index] * 1e-7`. -/
def calc_dragon_time (e : LSTEvent) (module_index : ℕ) (reference : ℚ) : ℚ :=
  reference + (e.pps_counter.getD module_index 0 : ℚ)
    + (e.tenMHz_counter.getD module_index 0 : ℚ) / 10 ^ 7

/-- `calc_tib_time` from `event_time.py`:
`reference + tib_pps_counter + tib_tenMHz_counter * 1e-7`. -/
def calc_tib_time (e : LSTEvent) (reference : ℚ) : ℚ :=
  reference + (e.tib_pps_counter : ℚ) + (e.tib_tenMHz_counter : ℚ) / 10 ^ 7

/-- Python `int()` applied to a rational: truncation toward zero. -/
def truncQ (q : ℚ) : ℤ :=
  if 0 ≤ q then ⌊q⌋ else ⌈q⌉

/-- Result of the reference block (`__call__` lines 233–283): the
`dragon_time` and `tib_time` values (`none` = `nan`), the state after a
possible bootstrap, and the critical log records emitted. -/
structure RefOut where
  dragon_time : Option ℚ
  tib_time : Option ℚ
  state : CalcState
  log : List LogEntry
  deriving Repr, DecidableEq

/-- The reference block of `__call__`: when neither clock reference is
established, bootstrap from the current event (Dragon always, TIB when the
trigger board is present); otherwise derive the times from the established
references via the linear counter mappings. -/
def refStage (s : CalcState) (e : LSTEvent) (module_index : ℕ)
    (tib_available : Bool) : RefOut :=
  let ucts_timestamp := e.ucts_timestamp
  let ucts_time : ℚ := (ucts_timestamp : ℚ) / 10 ^ 9
  if !s.has_dragon_reference && !s.has_tib_reference then
    let initial_dragon_counter : ℤ :=
      10 ^ 9 * e.pps_counter.getD module_index 0
        + 100 * e.tenMHz_counter.getD module_index 0
    let s₁ : CalcState :=
      { s with ucts_t0_dragon := some ucts_timestamp
               dragon_counter0 := some initial_dragon_counter
               has_dragon_reference := true }
    if tib_available then
      let initial_tib_counter : ℤ :=
        10 ^ 9 * e.tib_pps_counter + 100 * e.tib_tenMHz_counter
      { dragon_time := some ucts_time
        tib_time := some ucts_time
        state :=
          { s₁ with ucts_t0_tib := some ucts_timestamp
                    tib_counter0 := some initial_tib_counter
                    has_tib_reference := true }
        log := [.criticalDragonRef ucts_timestamp initial_dragon_counter,
                .criticalTibRef ucts_timestamp initial_tib_counter] }
    else
      { dragon_time := some ucts_time
        tib_time := none
        state := s₁
        log := [.criticalDragonRef ucts_timestamp initial_dragon_counter] }
  else
    { dragon_time :=
        if s.has_dragon_reference then
          some (calc_dragon_time e module_index
            ((s.ucts_t0_dragon.getD 0 - s.dragon_counter0.getD 0 : ℤ) / 10 ^ 9))
        else none
      tib_time :=
        if s.has_tib_reference && tib_available then
          some (calc_tib_time e
            ((s.ucts_t0_tib.getD 0 - s.tib_counter0.getD 0 : ℤ) / 10 ^ 9))
        else none
      state := s
      log := [] }

/-- Result of the queue substitution block (`__call__` lines 306–319). -/
structure ShiftOut where
  ucts_timestamp : ℤ
  ucts_trigger_type : ℤ
  qTs : List ℤ
  qTrig : List ℤ
  event : LSTEvent
  deriving Repr, DecidableEq

/-- The queue substitution block of `__call__`: when the correction queue
is non-empty, append the just-read sample at the tail, pop the head as the
current event's sample and overwrite the event's fields with it. -/
def uctsShift (qTs qTrig : List ℤ) (ucts_timestamp ucts_trigger_type : ℤ)
    (e : LSTEvent) : ShiftOut :=
  if qTs.length > 0 then
    let qTs' := qTs ++ [ucts_timestamp]
    let qTrig' := qTrig ++ [ucts_trigger_type]
    let ts := qTs'.headD 0
    let trig := qTrig'.headD 0
    { ucts_timestamp := ts
      ucts_trigger_type := trig
      qTs := qTs'.tail
      qTrig := qTrig'.tail
      event := { e with ucts_timestamp := ts, ucts_trigger_type := trig } }
  else
    { ucts_timestamp := ucts_timestamp
      ucts_trigger_type := ucts_trigger_type
      qTs := qTs
      qTrig := qTrig
      event := e }

/-- Result of the jump detection block (`__call__` lines 335–355). -/
structure JumpOut where
  ucts_time : ℚ
  qTs : List ℤ
  qTrig : List ℤ
  event : LSTEvent
  log : List LogEntry
  deriving Repr, DecidableEq

/-- The jump detection block of `__call__`: when
`ucts_time - dragon_time > 1e-6` (false when `dragon_time` is `nan`),
push the current sample back onto the queue head, fall back to the Dragon
time, set the trigger type from the TIB mask or to 0, and warn. -/
def uctsJumpCorrection (tib_available : Bool) (event_id : ℤ)
    (dragon_time : Option ℚ) (ucts_time : ℚ)
    (ucts_timestamp ucts_trigger_type : ℤ) (qTs qTrig : List ℤ)
    (e : LSTEvent) : JumpOut :=
  match dragon_time with
  | some d =>
    if ucts_time - d > 1 / 10 ^ 6 then
      { ucts_time := d
        qTs := ucts_timestamp :: qTs
        qTrig := ucts_trigger_type :: qTrig
        event :=
          { e with ucts_timestamp := truncQ (d * 10 ^ 9)
                   ucts_trigger_type :=
                     if tib_available then e.tib_masked_trigger else 0 }
        log := .warnUctsJump event_id d ((ucts_time - d) * 10 ^ 6)
          :: (if tib_available then [] else [.warnJumpNoTib]) }
    else
      { ucts_time := ucts_time, qTs := qTs, qTrig := qTrig, event := e, log := [] }
  | none =>
    { ucts_time := ucts_time, qTs := qTs, qTrig := qTrig, event := e, log := [] }

/-- The value returned by `__call__`: either the sentinel `NAN_TIME`, or
`Time(t, format='unix_tai')` where `t` may itself be `nan` (`none`). -/
inductive TimeResult where
  | nanTime
  | unix_tai (t : Option ℚ)
  deriving Repr, DecidableEq

/-- Everything observable about one `__call__`: the returned time, the
(possibly mutated) event, the new per-telescope state and the log. -/
structure CallOutput where
  result : TimeResult
  event : LSTEvent
  state : CalcState
  log : List LogEntry
  deriving Repr, DecidableEq

/-- The body of `__call__` after the availability checks: reference block,
queue substitution, jump detection, timestamp selection. -/
def uctsProcess (c : CalcConfig) (s : CalcState) (e : LSTEvent)
    (module_index : ℕ) (tib_available : Bool) : CallOutput :=
  let r := refStage s e module_index tib_available
  let sh := uctsShift s.previous_ucts_timestamps s.previous_ucts_trigger_types
    e.ucts_timestamp e.ucts_trigger_type e
  let ucts_time : ℚ := (sh.ucts_timestamp : ℚ) / 10 ^ 9
  let j := uctsJumpCorrection tib_available e.event_id r.dragon_time ucts_time
    sh.ucts_timestamp sh.ucts_trigger_type sh.qTs sh.qTrig sh.event
  { result :=
      match c.timestamp with
      | .ucts => .unix_tai (some j.ucts_time)
      | .dragon => .unix_tai r.dragon_time
      | .tib => .unix_tai r.tib_time
    event := j.event
    state :=
      { r.state with previous_ucts_timestamps := j.qTs
                     previous_ucts_trigger_types := j.qTrig }
    log := r.log ++ j.log }

/-- `EventTimeCalculator.__call__` for one telescope.  The module lookup
(`np.where(module_ids == dragon_module_id)[0][0]`) raises when the module
is absent; an event without the UCTS bit yields `NAN_TIME` and a warning.
The `ValueError` of the bootstrap case with TIB selected but absent
(event_time.py line 250) has the dead guard `timestampTraitEqStr`, so the
call always proceeds to the processing stages (the raise, were it live,
would abort the call, so the check sits before the pure processing). -/
def eventTimeCall (c : CalcConfig) (s : CalcState) (e : LSTEvent) :
    Except CalcError CallOutput :=
  match e.module_ids.findIdx? (fun m => m == c.dragon_module_id) with
  | none => .error .moduleNotFound
  | some module_index =>
    if (e.extdevices_presence &&& 2) == 0 then
      .ok { result := .nanTime
            event := e
            state := s
            log := [.warnUctsUnavailable e.obs_id e.event_id] }
    else
      let tib_available : Bool := (e.extdevices_presence &&& 1) != 0
      if !s.has_dragon_reference && !s.has_tib_reference
          && !tib_available && timestampTraitEqStr c "tib" then
        .error .missingReference
      else
        .ok (uctsProcess c s e module_index tib_available)

/-! ## Helper definitions and lemmas for the theorems -/

/-- A log record announcing a detected UCTS jump. -/
def isJumpWarning : LogEntry → Bool
  | .warnUctsJump _ _ _ => true
  | _ => false

theorem refStage_log_no_jump (s : CalcState) (e : LSTEvent) (mi : ℕ)
    (tib : Bool) : ((refStage s e mi tib).log.any isJumpWarning) = false := by
  unfold refStage
  split
  · split <;> simp [isJumpWarning]
  · simp

theorem uctsShift_masked_trigger (qTs qTrig : List ℤ) (ts trig : ℤ)
    (e : LSTEvent) :
    (uctsShift qTs qTrig ts trig e).event.tib_masked_trigger =
      e.tib_masked_trigger := by
  unfold uctsShift
  split <;> rfl

/-! ## Claims -/

/-- C9 (code bug): the claim — and §4.3 of the spec — require the
little-endian value `b 0 + 2^8 * b 1 + 2^16 * b 2`, but the raw input
field is `(np.uint8, 3)` and the function applies no widening cast, so
numpy wraps `counter[1] << 8` and `counter[2] << 16` to 0 and the program
returns only the first byte. -/
theorem C9_returns_first_byte (b : Fin 3 → ℕ) (h : ∀ i, b i < 2 ^ 8) :
    parse_tib_10MHz_counter b = b 0 := by
  have h0 := h 0
  have e8 : (2 : ℕ) ^ 8 = 256 := by norm_num
  have e16 : (2 : ℕ) ^ 16 = 65536 := by norm_num
  simp only [parse_tib_10MHz_counter, Nat.shiftLeft_eq, e8, e16] at h0 ⊢
  omega

/-- Witness for C9 at the byte triple `(1, 2, 3)`: the program returns 1,
not the 24-bit little-endian value `1 + 2^8*2 + 2^16*3 = 197121`. -/
theorem C9_witness :
    parse_tib_10MHz_counter ![1, 2, 3] = 1 ∧
    (1 : ℕ) < 2 ^ 8 ∧ (2 : ℕ) < 2 ^ 8 ∧ (3 : ℕ) < 2 ^ 8 := by
  refine ⟨?_, by decide, by decide, by decide⟩
  have h := C9_returns_first_byte ![1, 2, 3] (by decide)
  rw [h]
  decide

/-- C5: when bit 1 of the presence mask is clear, `__call__` returns the
`NAN_TIME` sentinel and warns with the event id, leaving the event, the
clock references and the correction queue untouched (and it returns
normally, so processing of later events continues). -/
theorem C5_ucts_unavailable (c : CalcConfig) (s : CalcState) (e : LSTEvent)
    (mi : ℕ)
    (hmod : e.module_ids.findIdx? (fun m => m == c.dragon_module_id) = some mi)
    (hucts : e.extdevices_presence &&& 2 = 0) :
    eventTimeCall c s e =
      .ok { result := .nanTime, event := e, state := s,
            log := [.warnUctsUnavailable e.obs_id e.event_id] } := by
  simp [eventTimeCall, hmod, hucts]

/-- Witness for C5: a concrete event with the UCTS bit clear. -/
theorem C5_witness :
    eventTimeCall ⟨.ucts, none, none, none, none, 132, true⟩
        ⟨[], [], false, false, none, none, none, none⟩
        ⟨1, 9, [132], [5], [6], 1, 77, 7, 5, 0, 55⟩ =
      .ok { result := .nanTime
            event := ⟨1, 9, [132], [5], [6], 1, 77, 7, 5, 0, 55⟩
            state := ⟨[], [], false, false, none, none, none, none⟩
            log := [.warnUctsUnavailable 1 9] } :=
  C5_ucts_unavailable _ _ _ 0 (by decide) (by decide)

/-- C6 (code bug): the spec — and the code's own error messages — intend
`MissingReference` at construction (selected clock source without its
reference pair, `use_first_event` disabled) and on the bootstrap anchor
event (TIB selected but absent), but both raises are dead in the program:
their guards compare the bare `TelescopeParameter` lookup object to a
string (no `.tel[tel_id]`), which is always `False`.  Construction always
succeeds without raising or warning, and the anchor call with TIB
selected but absent proceeds, bootstraps the Dragon reference and returns
a `nan` TIB time. -/
theorem C6_missing_reference_dead :
    EventTimeCalculator.init ⟨.dragon, none, none, none, none, 132, false⟩ =
      .ok (EventTimeCalculator.initState
        ⟨.dragon, none, none, none, none, 132, false⟩, []) ∧
    (∀ c : CalcConfig,
      EventTimeCalculator.init c =
        .ok (EventTimeCalculator.initState c, [])) ∧
    (eventTimeCall ⟨.tib, none, none, none, none, 132, true⟩
        ⟨[], [], false, false, none, none, none, none⟩
        ⟨1, 1, [132], [0], [0], 2, 10 ^ 9, 1, 0, 0, 55⟩).map
      (fun o => (o.result, o.state.has_dragon_reference)) =
      .ok (.unix_tai none, true) := by
  refine ⟨rfl, ?_, rfl⟩
  intro c
  simp [EventTimeCalculator.init, timestampTraitEqStr]

theorem eventTimeCall_total (c : CalcConfig) (s : CalcState) (e : LSTEvent)
    (mi : ℕ)
    (hmod : e.module_ids.findIdx? (fun m => m == c.dragon_module_id) = some mi)
    (hucts : e.extdevices_presence &&& 2 ≠ 0) :
    eventTimeCall c s e =
      .ok (uctsProcess c s e mi ((e.extdevices_presence &&& 1) != 0)) := by
  unfold eventTimeCall
  rw [hmod]
  simp [hucts, timestampTraitEqStr]

theorem eventTimeCall_ok_eq (c : CalcConfig) (s : CalcState) (e : LSTEvent)
    (out : CallOutput) (mi : ℕ)
    (hmod : e.module_ids.findIdx? (fun m => m == c.dragon_module_id) = some mi)
    (hucts : e.extdevices_presence &&& 2 ≠ 0)
    (hcall : eventTimeCall c s e = .ok out) :
    out = uctsProcess c s e mi ((e.extdevices_presence &&& 1) != 0) := by
  rw [eventTimeCall_total c s e mi hmod hucts] at hcall
  simp only [Except.ok.injEq] at hcall
  exact hcall.symm

/-- C1: every reconcile call with the external clock available returns
normally (the one raise between the availability check and the processing
stages has a dead guard), and after any queue substitution a jump is
declared if and only if the substituted UCTS time exceeds the
Dragon-derived time by strictly more than 1 µs (with a `nan` Dragon time,
in particular, no jump is declared); when declared, the substituted sample
is pushed back onto the queue head, the event's `ucts_timestamp` is
overwritten with the Dragon time in nanoseconds (the UCTS time falls back
to the Dragon time), its trigger type becomes the TIB mask when the
trigger board is present and the sentinel 0 otherwise, and a warning with
the event id and the discrepancy is emitted. -/
theorem C1_jump_detection (c : CalcConfig) (s : CalcState) (e : LSTEvent)
    (out : CallOutput) (mi : ℕ) (tib : Bool) (sh : ShiftOut) (d? : Option ℚ)
    (hmod : e.module_ids.findIdx? (fun m => m == c.dragon_module_id) = some mi)
    (hucts : e.extdevices_presence &&& 2 ≠ 0)
    (htib : tib = ((e.extdevices_presence &&& 1) != 0))
    (hsh : sh = uctsShift s.previous_ucts_timestamps
      s.previous_ucts_trigger_types e.ucts_timestamp e.ucts_trigger_type e)
    (hd : d? = (refStage s e mi tib).dragon_time)
    (hout : out = uctsProcess c s e mi tib) :
    eventTimeCall c s e = .ok out ∧
    (out.log.any isJumpWarning = true ↔
      ∃ d, d? = some d ∧
        (sh.ucts_timestamp : ℚ) / 10 ^ 9 - d > 1 / 10 ^ 6) ∧
    (∀ d, d? = some d →
      (sh.ucts_timestamp : ℚ) / 10 ^ 9 - d > 1 / 10 ^ 6 →
      out.state.previous_ucts_timestamps = sh.ucts_timestamp :: sh.qTs ∧
      out.state.previous_ucts_trigger_types =
        sh.ucts_trigger_type :: sh.qTrig ∧
      out.event.ucts_timestamp = truncQ (d * 10 ^ 9) ∧
      out.event.ucts_trigger_type =
        (if tib then e.tib_masked_trigger else 0) ∧
      (c.timestamp = .ucts → out.result = .unix_tai (some d)) ∧
      LogEntry.warnUctsJump e.event_id d
        (((sh.ucts_timestamp : ℚ) / 10 ^ 9 - d) * 10 ^ 6) ∈ out.log) := by
  subst htib hsh hd hout
  refine ⟨eventTimeCall_total c s e mi hmod hucts, ?_⟩
  simp only [uctsProcess]
  cases hdt : (refStage s e mi
      ((e.extdevices_presence &&& 1) != 0)).dragon_time with
  | none =>
    simp [uctsJumpCorrection, List.any_append, refStage_log_no_jump]
  | some d =>
    by_cases hgt : ((uctsShift s.previous_ucts_timestamps
        s.previous_ucts_trigger_types e.ucts_timestamp e.ucts_trigger_type
          e).ucts_timestamp : ℚ) / 10 ^ 9 - d > 1 / 10 ^ 6
    · simp only [uctsJumpCorrection, if_pos hgt]
      constructor
      · simp only [List.any_append, refStage_log_no_jump, Bool.false_or,
          List.any_cons, isJumpWarning, Bool.true_or, true_iff]
        exact ⟨d, rfl, hgt⟩
      · rintro d' hd' hgt'
        injection hd' with hdd
        subst hdd
        refine ⟨?_, ?_, ?_, ?_, ?_, ?_⟩ <;>
          first
          | rfl
          | trivial
          | (rw [uctsShift_masked_trigger])
          | (intro hts; simp [hts])
          | exact List.mem_append_right _ (List.mem_cons_self _ _)
    · simp only [uctsJumpCorrection, if_neg hgt]
      constructor
      · simp only [List.any_append, refStage_log_no_jump, List.any_nil,
          Bool.or_false]
        constructor
        · intro habs
          exact absurd habs (by simp)
        · rintro ⟨d', hd', hgt'⟩
          injection hd' with hdd
          subst hdd
          exact absurd hgt' hgt
      · rintro d' hd' hgt'
        injection hd' with hdd
        subst hdd
        exact absurd hgt' hgt

/-- C2: with the external clock available and a non-empty correction
queue, the just-read `(ucts_timestamp, ucts_trigger_type)` pair is
appended at the queue's tail, the pair at the head is popped and becomes
the current event's external-clock sample, and the event's fields are
overwritten with the popped values (which also remain the event's values
whenever no jump is declared afterwards). -/
theorem C2_queue_realignment (c : CalcConfig) (s : CalcState) (e : LSTEvent)
    (out : CallOutput) (mi : ℕ) (sh : ShiftOut) (a b : ℤ) (ts tt : List ℤ)
    (hmod : e.module_ids.findIdx? (fun m => m == c.dragon_module_id) = some mi)
    (hucts : e.extdevices_presence &&& 2 ≠ 0)
    (hts : s.previous_ucts_timestamps = a :: ts)
    (htt : s.previous_ucts_trigger_types = b :: tt)
    (hsh : sh = uctsShift s.previous_ucts_timestamps
      s.previous_ucts_trigger_types e.ucts_timestamp e.ucts_trigger_type e)
    (hcall : eventTimeCall c s e = .ok out) :
    sh.qTs = ts ++ [e.ucts_timestamp] ∧
    sh.qTrig = tt ++ [e.ucts_trigger_type] ∧
    sh.ucts_timestamp = a ∧
    sh.ucts_trigger_type = b ∧
    sh.event = { e with ucts_timestamp := a, ucts_trigger_type := b } ∧
    (out.log.any isJumpWarning = false →
      out.event.ucts_timestamp = a ∧
      out.event.ucts_trigger_type = b ∧
      out.state.previous_ucts_timestamps = ts ++ [e.ucts_timestamp] ∧
      out.state.previous_ucts_trigger_types =
        tt ++ [e.ucts_trigger_type]) := by
  have hout := eventTimeCall_ok_eq c s e out mi hmod hucts hcall
  subst hout hsh
  have hshift : uctsShift s.previous_ucts_timestamps
      s.previous_ucts_trigger_types e.ucts_timestamp e.ucts_trigger_type e =
      { ucts_timestamp := a
        ucts_trigger_type := b
        qTs := ts ++ [e.ucts_timestamp]
        qTrig := tt ++ [e.ucts_trigger_type]
        event := { e with ucts_timestamp := a, ucts_trigger_type := b } } := by
    rw [uctsShift, hts, htt]
    simp
  refine ⟨by rw [hshift], by rw [hshift], by rw [hshift], by rw [hshift],
    by rw [hshift], ?_⟩
  intro hnj
  simp only [uctsProcess, hshift] at hnj ⊢
  cases hdt : (refStage s e mi
      ((e.extdevices_presence &&& 1) != 0)).dragon_time with
  | none =>
    simp [uctsJumpCorrection]
  | some d =>
    rw [hdt] at hnj
    by_cases hgt : ((a : ℚ)) / 10 ^ 9 - d > 1 / 10 ^ 6
    · simp only [uctsJumpCorrection, if_pos hgt, List.any_append,
        refStage_log_no_jump, List.any_cons, isJumpWarning, Bool.false_or,
        Bool.true_or] at hnj
      exact Bool.noConfusion hnj
    · simp only [uctsJumpCorrection]
      rw [if_neg hgt]
      exact ⟨rfl, rfl, rfl, rfl⟩

/-- C4: with no Dragon and no TIB reference established, an event with the
external clock available becomes the calibration anchor (the call always
returns normally, whatever clock source is selected — the TIB-selected
raise has a dead guard): the Dragon reference is set to
`(ucts_timestamp, 10^9 * pps + 100 * tenMHz)` of the configured module,
the TIB reference analogously when the trigger board is present, both
transitions are logged at critical severity, the implied Dragon time
equals the external time exactly, and no jump is declared on the anchor
event. -/
theorem C4_bootstrap (c : CalcConfig) (s : CalcState) (e : LSTEvent)
    (out : CallOutput) (mi : ℕ) (tib : Bool)
    (hmod : e.module_ids.findIdx? (fun m => m == c.dragon_module_id) = some mi)
    (hucts : e.extdevices_presence &&& 2 ≠ 0)
    (htib : tib = ((e.extdevices_presence &&& 1) != 0))
    (hdr : s.has_dragon_reference = false)
    (htr : s.has_tib_reference = false)
    (hq : s.previous_ucts_timestamps = [])
    (hq2 : s.previous_ucts_trigger_types = [])
    (hfirst : c.use_first_event = true)
    (hout : out = uctsProcess c s e mi tib) :
    eventTimeCall c s e = .ok out ∧
    out.state.has_dragon_reference = true ∧
    out.state.ucts_t0_dragon = some e.ucts_timestamp ∧
    out.state.dragon_counter0 =
      some (10 ^ 9 * e.pps_counter.getD mi 0
        + 100 * e.tenMHz_counter.getD mi 0) ∧
    LogEntry.criticalDragonRef e.ucts_timestamp
      (10 ^ 9 * e.pps_counter.getD mi 0 + 100 * e.tenMHz_counter.getD mi 0)
      ∈ out.log ∧
    (tib = true →
      out.state.has_tib_reference = true ∧
      out.state.ucts_t0_tib = some e.ucts_timestamp ∧
      out.state.tib_counter0 =
        some (10 ^ 9 * e.tib_pps_counter + 100 * e.tib_tenMHz_counter) ∧
      LogEntry.criticalTibRef e.ucts_timestamp
        (10 ^ 9 * e.tib_pps_counter + 100 * e.tib_tenMHz_counter)
        ∈ out.log) ∧
    (refStage s e mi tib).dragon_time =
      some ((e.ucts_timestamp : ℚ) / 10 ^ 9) ∧
    out.log.any isJumpWarning = false ∧
    out.state.previous_ucts_timestamps = [] ∧
    out.state.previous_ucts_trigger_types = [] ∧
    out.event = e := by
  subst htib hout
  refine ⟨eventTimeCall_total c s e mi hmod hucts, ?_⟩
  have hshift : uctsShift s.previous_ucts_timestamps
      s.previous_ucts_trigger_types e.ucts_timestamp e.ucts_trigger_type e =
      ⟨e.ucts_timestamp, e.ucts_trigger_type, [], [], e⟩ := by
    rw [hq, hq2]
    simp [uctsShift]
  have hngt : ¬((e.ucts_timestamp : ℚ) / 10 ^ 9
      - (e.ucts_timestamp : ℚ) / 10 ^ 9 > 1 / 10 ^ 6) := by
    simp
  simp only [uctsProcess, hshift]
  cases htb : ((e.extdevices_presence &&& 1) != 0) with
  | false =>
    have href : refStage s e mi false =
        { dragon_time := some ((e.ucts_timestamp : ℚ) / 10 ^ 9)
          tib_time := none
          state :=
            { s with
              ucts_t0_dragon := some e.ucts_timestamp
              dragon_counter0 := some (10 ^ 9 * e.pps_counter.getD mi 0
                + 100 * e.tenMHz_counter.getD mi 0)
              has_dragon_reference := true }
          log := [.criticalDragonRef e.ucts_timestamp
            (10 ^ 9 * e.pps_counter.getD mi 0
              + 100 * e.tenMHz_counter.getD mi 0)] } := by
      simp [refStage, hdr, htr]
    simp only [href, uctsJumpCorrection]
    rw [if_neg hngt]
    refine ⟨?_, ?_, ?_, ?_, ?_, ?_, ?_, ?_, ?_, ?_⟩ <;>
      first
      | trivial
      | simp [isJumpWarning]
      | (intro h; exact Bool.noConfusion h)
  | true =>
    have href : refStage s e mi true =
        { dragon_time := some ((e.ucts_timestamp : ℚ) / 10 ^ 9)
          tib_time := some ((e.ucts_timestamp : ℚ) / 10 ^ 9)
          state :=
            { s with
              ucts_t0_dragon := some e.ucts_timestamp
              dragon_counter0 := some (10 ^ 9 * e.pps_counter.getD mi 0
                + 100 * e.tenMHz_counter.getD mi 0)
              has_dragon_reference := true
              ucts_t0_tib := some e.ucts_timestamp
              tib_counter0 := some (10 ^ 9 * e.tib_pps_counter
                + 100 * e.tib_tenMHz_counter)
              has_tib_reference := true }
          log := [.criticalDragonRef e.ucts_timestamp
              (10 ^ 9 * e.pps_counter.getD mi 0
                + 100 * e.tenMHz_counter.getD mi 0),
            .criticalTibRef e.ucts_timestamp
              (10 ^ 9 * e.tib_pps_counter + 100 * e.tib_tenMHz_counter)] } := by
      simp [refStage, hdr, htr]
    simp only [href, uctsJumpCorrection]
    rw [if_neg hngt]
    refine ⟨?_, ?_, ?_, ?_, ?_, ?_, ?_, ?_, ?_, ?_⟩ <;>
      first
      | trivial
      | simp [isJumpWarning]
      | (intro h; refine ⟨?_, ?_, ?_, ?_⟩ <;> first | trivial | simp)

/-- A telescope whose TIB reference was supplied externally but whose
Dragon reference was not, and whose correction queue is empty. -/
def tibOnlyInv (s : CalcState) : Prop :=
  s.has_dragon_reference = false ∧ s.has_tib_reference = true ∧
  s.previous_ucts_timestamps = [] ∧ s.previous_ucts_trigger_types = []

/-- C10: with a TIB reference but no Dragon reference, the bootstrap
branch never runs, the Dragon time stays `nan` on every event, no jump is
ever declared, the correction queue stays empty forever and the event's
UCTS fields are never overwritten: the `tibOnlyInv` state predicate is
established by `__init__` and preserved by every call. -/
theorem C10_tib_only_never_jumps :
    (∀ (c : CalcConfig) (st : CalcState) (log : List LogEntry),
      hasDragonPair c = false → hasTibPair c = true →
      EventTimeCalculator.init c = .ok (st, log) → tibOnlyInv st) ∧
    (∀ (c : CalcConfig) (s : CalcState) (e : LSTEvent) (out : CallOutput),
      tibOnlyInv s → eventTimeCall c s e = .ok out →
      tibOnlyInv out.state ∧ out.event = e ∧
      out.log.any isJumpWarning = false ∧
      (e.extdevices_presence &&& 2 ≠ 0 → c.timestamp = .dragon →
        out.result = .unix_tai none)) := by
  constructor
  · intro c st log hd ht hinit
    unfold EventTimeCalculator.init at hinit
    split at hinit
    · split at hinit
      · exact absurd hinit (by simp)
      · simp only [Except.ok.injEq, Prod.mk.injEq] at hinit
        obtain ⟨hst, -⟩ := hinit
        subst hst
        exact ⟨hd, ht, rfl, rfl⟩
    · simp only [Except.ok.injEq, Prod.mk.injEq] at hinit
      obtain ⟨hst, -⟩ := hinit
      subst hst
      exact ⟨hd, ht, rfl, rfl⟩
  · intro c s e out hinv hcall
    obtain ⟨hdr, htr, hq, hq2⟩ := hinv
    cases hmod : e.module_ids.findIdx? (fun m => m == c.dragon_module_id) with
    | none =>
      unfold eventTimeCall at hcall
      rw [hmod] at hcall
      exact absurd hcall (by simp)
    | some mi =>
      by_cases hucts : e.extdevices_presence &&& 2 = 0
      · unfold eventTimeCall at hcall
        rw [hmod] at hcall
        simp only [beq_iff_eq, hucts, if_true, if_pos, Except.ok.injEq]
          at hcall
        subst hcall
        refine ⟨⟨hdr, htr, hq, hq2⟩, rfl, by simp [isJumpWarning], ?_⟩
        intro habs
        exact absurd hucts habs
      · have hout := eventTimeCall_ok_eq c s e out mi hmod hucts hcall
        subst hout
        have hshift : uctsShift s.previous_ucts_timestamps
            s.previous_ucts_trigger_types e.ucts_timestamp
            e.ucts_trigger_type e =
            ⟨e.ucts_timestamp, e.ucts_trigger_type, [], [], e⟩ := by
          rw [hq, hq2]
          simp [uctsShift]
        have hd1 : (refStage s e mi
            ((e.extdevices_presence &&& 1) != 0)).dragon_time = none := by
          simp [refStage, hdr, htr]
        have hd2 : (refStage s e mi
            ((e.extdevices_presence &&& 1) != 0)).state = s := by
          simp [refStage, hdr, htr]
        have hd3 : (refStage s e mi
            ((e.extdevices_presence &&& 1) != 0)).log = [] := by
          simp [refStage, hdr, htr]
        simp only [uctsProcess, hshift, hd1, hd2, hd3, uctsJumpCorrection]
        refine ⟨⟨hdr, htr, by trivial, by trivial⟩, by trivial, by simp, ?_⟩
        intro _ hts
        simp [hts]

/-! ## Concrete example inputs used by the witnesses -/

/-- Configuration selecting the UCTS clock, no supplied references. -/
def exCfg : CalcConfig := ⟨.ucts, none, none, none, none, 132, true⟩

/-- A calibrated state (both references established, empty queue). -/
def exState : CalcState :=
  ⟨[], [], true, true, some (10 ^ 9), some 0, some (10 ^ 9), some 0⟩

/-- A calibrated state whose correction queue holds one pending sample. -/
def exStateQ : CalcState :=
  ⟨[3 * 10 ^ 9], [3], true, true, some (10 ^ 9), some 0, some (10 ^ 9),
    some 0⟩

/-- An event whose UCTS sample (3 s) is 1 s ahead of its Dragon time
(2 s): a jump. -/
def exEventJump : LSTEvent :=
  ⟨1, 2, [132], [1], [0], 3, 3 * 10 ^ 9, 3, 1, 0, 55⟩

/-- The successor event carrying the next shifted sample (4 s). -/
def exEventNext : LSTEvent :=
  ⟨1, 3, [132], [2], [0], 3, 4 * 10 ^ 9, 4, 2, 0, 55⟩

/-- A first event suitable as bootstrap anchor. -/
def exEventFirst : LSTEvent :=
  ⟨1, 1, [132], [0], [0], 3, 10 ^ 9, 1, 0, 0, 55⟩

/-- Witness for C1: on `exEventJump` (UCTS 1 s ahead of Dragon) a jump is
declared. -/
theorem C1_witness :
    (uctsProcess exCfg exState exEventJump 0 true).log.any isJumpWarning
      = true := by
  have h := C1_jump_detection exCfg exState exEventJump
    (uctsProcess exCfg exState exEventJump 0 true) 0 true
    (uctsShift [] [] (3 * 10 ^ 9) 3 exEventJump) (some 2)
    (by decide) (by decide) (by decide) rfl
    (by norm_num [refStage, exState, exEventJump, calc_dragon_time]) rfl
  exact h.2.1.mpr ⟨2, rfl, by norm_num [uctsShift]⟩

/-- Witness for C2: with one pending sample queued, `exEventNext` is
realigned to the queued 3 s sample and its own sample joins the tail. -/
theorem C2_witness :
    (uctsProcess exCfg exStateQ exEventNext 0 true).event.ucts_timestamp
      = 3 * 10 ^ 9 ∧
    (uctsProcess exCfg exStateQ
      exEventNext 0 true).state.previous_ucts_timestamps = [4 * 10 ^ 9] := by
  have h := C2_queue_realignment exCfg exStateQ exEventNext
    (uctsProcess exCfg exStateQ exEventNext 0 true) 0
    (uctsShift [3 * 10 ^ 9] [3] (4 * 10 ^ 9) 4 exEventNext)
    (3 * 10 ^ 9) 3 [] []
    (by decide) (by decide) (by decide) (by decide) rfl rfl
  have h6 := h.2.2.2.2.2 (by
    norm_num [uctsProcess, uctsShift, refStage, uctsJumpCorrection,
      calc_dragon_time, exCfg, exStateQ, exEventNext, isJumpWarning])
  refine ⟨h6.1, ?_⟩
  rw [h6.2.2.1]
  exact rfl

/-- Witness for C4: `exEventFirst` becomes the calibration anchor with no
jump declared. -/
theorem C4_witness :
    (uctsProcess exCfg ⟨[], [], false, false, none, none, none, none⟩
      exEventFirst 0 true).state.ucts_t0_dragon = some (10 ^ 9) ∧
    (uctsProcess exCfg ⟨[], [], false, false, none, none, none, none⟩
      exEventFirst 0 true).state.has_dragon_reference = true ∧
    (uctsProcess exCfg ⟨[], [], false, false, none, none, none, none⟩
      exEventFirst 0 true).log.any isJumpWarning = false := by
  have h := C4_bootstrap exCfg ⟨[], [], false, false, none, none, none, none⟩
    exEventFirst
    (uctsProcess exCfg ⟨[], [], false, false, none, none, none, none⟩
      exEventFirst 0 true) 0 true
    (by decide) (by decide) (by decide) rfl rfl rfl rfl (by decide) rfl
  exact ⟨h.2.2.1, h.2.1, h.2.2.2.2.2.2.2.1⟩

/-- Witness for C6: a construction the claim says must fail (TIB
selected, no pair, `use_first_event` disabled) succeeds in the program. -/
theorem C6_witness :
    EventTimeCalculator.init ⟨.tib, none, none, none, none, 99, false⟩ =
      .ok (EventTimeCalculator.initState
        ⟨.tib, none, none, none, none, 99, false⟩, []) :=
  C6_missing_reference_dead.2.1 ⟨.tib, none, none, none, none, 99, false⟩

/-- Witness for C10: a TIB-only telescope state is established by
`__init__` and preserved through a call. -/
theorem C10_witness :
    tibOnlyInv ⟨[], [], false, true, none, none, some 0, some 0⟩ ∧
    tibOnlyInv (uctsProcess ⟨.ucts, none, none, some 0, some 0, 132, true⟩
      ⟨[], [], false, true, none, none, some 0, some 0⟩
      ⟨1, 5, [132], [7], [0], 3, 42, 2, 7, 0, 55⟩ 0 true).state := by
  have h1 := C10_tib_only_never_jumps.1
    ⟨.ucts, none, none, some 0, some 0, 132, true⟩
    ⟨[], [], false, true, none, none, some 0, some 0⟩ []
    (by decide) (by decide) rfl
  have h2 := C10_tib_only_never_jumps.2
    ⟨.ucts, none, none, some 0, some 0, 132, true⟩
    ⟨[], [], false, true, none, none, some 0, some 0⟩
    ⟨1, 5, [132], [7], [0], 3, 42, 2, 7, 0, 55⟩
    (uctsProcess ⟨.ucts, none, none, some 0, some 0, 132, true⟩
      ⟨[], [], false, true, none, none, some 0, some 0⟩
      ⟨1, 5, [132], [7], [0], 3, 42, 2, 7, 0, 55⟩ 0 true)
    h1 rfl
  exact ⟨h1, h2.1⟩

theorem filterMap_head_first {α β : Type} (f : α → Option β) :
    ∀ (l : List α) (c : β) (rest : List β), l.filterMap f = c :: rest →
      ∃ i a, l.get? i = some a ∧ f a = some c ∧
        ∀ j, j < i → ∀ b, l.get? j = some b → f b = none := by
  intro l
  induction l with
  | nil =>
    intro c rest h
    simp at h
  | cons a l ih =>
    intro c rest h
    cases hf : f a with
    | some v =>
      rw [List.filterMap_cons, hf] at h
      injection h with h1 h2
      subst h1
      exact ⟨0, a, rfl, hf, fun j hj => absurd hj (Nat.not_lt_zero j)⟩
    | none =>
      rw [List.filterMap_cons, hf] at h
      obtain ⟨i, a', hget, hfa, hfirst⟩ := ih c rest h
      refine ⟨i + 1, a', hget, hfa, ?_⟩
      intro j hj b hgetj
      cases j with
      | zero =>
        injection hgetj with hh
        subst hh
        exact hf
      | succ j =>
        exact hfirst j (Nat.lt_of_succ_lt_succ hj) b hgetj

/-- C8: merger construction fails with `EmptyInput` on an empty path
collection and with `ConfigurationMissing` exactly when no substream
yields a configuration record (a substream with no first event contributes
none); otherwise it succeeds, buffering each substream's first event
(`none` for an empty substream, which is thereby skipped silently), and
the canonical configuration is that of the first substream providing
one. -/
theorem C8_construction (ps : List (List ℤ × Option ℤ)) :
    (MultiFiles.init ([] : List (List ℤ × Option ℤ)) = .error .emptyInput) ∧
    (ps ≠ [] →
      (MultiFiles.init ps = .error .configurationMissing ↔
        ∀ p ∈ ps, p.1 = [] ∨ p.2 = none)) ∧
    (∀ m, MultiFiles.init ps = .ok m →
      m.streams.length = ps.length ∧
      (∀ i p, ps.get? i = some p →
        m.streams.get? i = some
          ⟨p.1.head?, ⟨p.1, p.2, if p.1.isEmpty then 0 else 1⟩⟩) ∧
      (∃ i p, ps.get? i = some p ∧ p.1 ≠ [] ∧ p.2 = some m.camera_config ∧
        ∀ j, j < i → ∀ q, ps.get? j = some q → q.1 = [] ∨ q.2 = none)) := by
  refine ⟨rfl, ?_, ?_⟩
  · intro hne
    unfold MultiFiles.init
    rw [if_neg (by simpa using hne)]
    cases hfm : ps.filterMap (fun p => if p.1.isEmpty then none else p.2) with
    | nil =>
      constructor
      · intro _ p hp
        rw [List.filterMap_eq_nil] at hfm
        have hp0 := hfm p hp
        by_cases h1 : p.1.isEmpty
        · left
          exact List.isEmpty_iff.mp h1
        · right
          simpa [h1] using hp0
      · intro _
        rfl
    | cons c rest =>
      constructor
      · intro habs
        exact absurd habs (by simp)
      · intro hall
        exfalso
        have hnil : ps.filterMap
            (fun p => if p.1.isEmpty then none else p.2) = [] := by
          rw [List.filterMap_eq_nil]
          intro p hp
          rcases hall p hp with h | h
          · simp [h]
          · simp [h]
        rw [hnil] at hfm
        exact List.noConfusion hfm
  · intro m hm
    unfold MultiFiles.init at hm
    by_cases hne : ps.length = 0
    · rw [if_pos hne] at hm
      exact absurd hm (by simp)
    · rw [if_neg hne] at hm
      cases hfm : ps.filterMap (fun p => if p.1.isEmpty then none else p.2)
          with
      | nil =>
        rw [hfm] at hm
        exact absurd hm (by simp)
      | cons c rest =>
        rw [hfm] at hm
        simp only [Except.ok.injEq] at hm
        subst hm
        refine ⟨by simp, ?_, ?_⟩
        · intro i p hp
          rw [List.get?_map, hp]
          rfl
        · obtain ⟨i, p, hget, hf, hfirst⟩ :=
            filterMap_head_first _ ps c rest hfm
          by_cases hE : p.1.isEmpty
          · rw [if_pos hE] at hf
            exact absurd hf (by simp)
          · rw [if_neg hE] at hf
            refine ⟨i, p, hget, ?_, hf, ?_⟩
            · intro h1
              exact hE (by simp [h1])
            · intro j hj q hq
              have hq0 := hfirst j hj q hq
              by_cases hE2 : q.1.isEmpty
              · left
                exact List.isEmpty_iff.mp hE2
              · right
                simpa [hE2] using hq0

theorem minEventStream_eq_none (l : List SubStream) :
    minEventStream l = none ↔ ∀ st ∈ l, st.buffered = none := by
  induction l with
  | nil => simp [minEventStream]
  | cons st rest ih =>
    cases hb : st.buffered with
    | none =>
      simp only [minEventStream, hb, Option.map_eq_none', List.mem_cons]
      constructor
      · intro h st' hst'
        rcases hst' with rfl | hst'
        · exact hb
        · exact (ih.mp h) st' hst'
      · intro h
        exact ih.mpr fun st' hst' => h st' (Or.inr hst')
    | some v =>
      simp only [minEventStream, hb]
      constructor
      · intro h
        exfalso
        cases hr : minEventStream rest with
        | none =>
          rw [hr] at h
          exact Option.noConfusion h
        | some p =>
          rcases p with ⟨i', w⟩
          simp only [hr] at h
          split at h <;> exact Option.noConfusion h
      · intro h
        exact absurd (h st (List.mem_cons_self st rest)) (by simp [hb])

theorem minEventStream_spec (l : List SubStream) (i : ℕ) (v : ℤ)
    (h : minEventStream l = some (i, v)) :
    (∃ st, l.get? i = some st ∧ st.buffered = some v) ∧
    (∀ st ∈ l, ∀ w, st.buffered = some w → v ≤ w) ∧
    (∀ j, j < i → ∀ st, l.get? j = some st → ∀ w, st.buffered = some w →
      v < w) := by
  induction l generalizing i v with
  | nil => simp [minEventStream] at h
  | cons st rest ih =>
    rw [minEventStream] at h
    cases hb : st.buffered with
    | none =>
      rw [hb] at h
      cases hr : minEventStream rest with
      | none =>
        rw [hr] at h
        exact Option.noConfusion h
      | some p =>
        rcases p with ⟨i', w⟩
        simp only [hr, Option.map_some', Option.some.injEq,
          Prod.mk.injEq] at h
        obtain ⟨hi, hv⟩ := h
        subst hi
        subst hv
        obtain ⟨⟨st', hget', hb'⟩, hmin', hfirst'⟩ := ih i' w hr
        refine ⟨⟨st', hget', hb'⟩, ?_, ?_⟩
        · intro st2 hst2 w2 hb2
          rcases List.mem_cons.mp hst2 with rfl | hst2
          · rw [hb] at hb2
            exact Option.noConfusion hb2
          · exact hmin' st2 hst2 w2 hb2
        · intro j hj st2 hget2 w2 hb2
          cases j with
          | zero =>
            injection hget2 with hh
            subst hh
            rw [hb] at hb2
            exact Option.noConfusion hb2
          | succ j =>
            exact hfirst' j (Nat.lt_of_succ_lt_succ hj) st2 hget2 w2 hb2
    | some v' =>
      rw [hb] at h
      cases hr : minEventStream rest with
      | none =>
        simp only [hr, Option.some.injEq, Prod.mk.injEq] at h
        obtain ⟨hi, hv⟩ := h
        subst hi
        subst hv
        refine ⟨⟨st, rfl, hb⟩, ?_, ?_⟩
        · intro st2 hst2 w2 hb2
          rcases List.mem_cons.mp hst2 with rfl | hst2
          · rw [hb] at hb2
            injection hb2 with hh
            exact le_of_eq hh
          · have hn := (minEventStream_eq_none rest).mp hr st2 hst2
            rw [hn] at hb2
            exact Option.noConfusion hb2
        · intro j hj
          exact absurd hj (Nat.not_lt_zero j)
      | some p =>
        rcases p with ⟨i', w⟩
        simp only [hr] at h
        by_cases hw : w < v'
        · rw [if_pos hw] at h
          simp only [Option.some.injEq, Prod.mk.injEq] at h
          obtain ⟨hi, hv⟩ := h
          subst hi
          subst hv
          obtain ⟨⟨st', hget', hb'⟩, hmin', hfirst'⟩ := ih i' w hr
          refine ⟨⟨st', hget', hb'⟩, ?_, ?_⟩
          · intro st2 hst2 w2 hb2
            rcases List.mem_cons.mp hst2 with rfl | hst2
            · rw [hb] at hb2
              injection hb2 with hh
              subst hh
              exact le_of_lt hw
            · exact hmin' st2 hst2 w2 hb2
          · intro j hj st2 hget2 w2 hb2
            cases j with
            | zero =>
              injection hget2 with hh
              subst hh
              rw [hb] at hb2
              injection hb2 with hh2
              subst hh2
              exact hw
            | succ j =>
              exact hfirst' j (Nat.lt_of_succ_lt_succ hj) st2 hget2 w2 hb2
        · rw [if_neg hw] at h
          simp only [Option.some.injEq, Prod.mk.injEq] at h
          obtain ⟨hi, hv⟩ := h
          subst hi
          subst hv
          obtain ⟨⟨st', hget', hb'⟩, hmin', hfirst'⟩ := ih i' w hr
          refine ⟨⟨st, rfl, hb⟩, ?_, ?_⟩
          · intro st2 hst2 w2 hb2
            rcases List.mem_cons.mp hst2 with rfl | hst2
            · rw [hb] at hb2
              injection hb2 with hh
              exact le_of_eq hh
            · exact le_trans (not_lt.mp hw) (hmin' st2 hst2 w2 hb2)
          · intro j hj
            exact absurd hj (Nat.not_lt_zero j)

theorem next_event_none_iff (m : MultiFiles) :
    m.next_event = none ↔ ∀ st ∈ m.streams, st.buffered = none := by
  constructor
  · intro hn
    cases h : minEventStream m.streams with
    | none => exact (minEventStream_eq_none _).mp h
    | some p =>
      unfold MultiFiles.next_event at hn
      rw [h] at hn
      exact Option.noConfusion hn
  · intro hall
    unfold MultiFiles.next_event
    rw [(minEventStream_eq_none _).mpr hall]

theorem next_event_some (m : MultiFiles) (v : ℤ) (m' : MultiFiles)
    (h : m.next_event = some (v, m')) :
    ∃ i st, m.streams.get? i = some st ∧ st.buffered = some v ∧
      m'.streams = m.streams.set i st.advance ∧
      m'.camera_config = m.camera_config ∧
      (∀ st' ∈ m.streams, ∀ w, st'.buffered = some w → v ≤ w) ∧
      (∀ j, j < i → ∀ st', m.streams.get? j = some st' → ∀ w,
        st'.buffered = some w → v < w) := by
  unfold MultiFiles.next_event at h
  cases hm : minEventStream m.streams with
  | none =>
    rw [hm] at h
    exact Option.noConfusion h
  | some p =>
    rcases p with ⟨i, w⟩
    rw [hm] at h
    simp only [Option.some.injEq, Prod.mk.injEq] at h
    obtain ⟨hv, hm'⟩ := h
    subst hv
    obtain ⟨⟨st, hget, hb⟩, hmin, hfirst⟩ := minEventStream_spec _ _ _ hm
    have hgetD : m.streams.getD i ⟨none, ⟨[], none, 0⟩⟩ = st := by
      rw [List.getD_eq_get?, hget]
      rfl
    refine ⟨i, st, hget, hb, ?_, ?_, hmin, hfirst⟩
    · rw [← hm', hgetD]
    · rw [← hm']

theorem pending_of_buffered (st : SubStream) (w : ℤ)
    (hb : st.buffered = some w) :
    st.pending = w :: st.file.events.drop st.file.cursor := by
  unfold SubStream.pending
  rw [hb]

theorem advance_pending (st : SubStream) :
    st.advance.pending = st.file.events.drop st.file.cursor := by
  unfold SubStream.advance SubFile.next
  cases hg : st.file.events.get? st.file.cursor with
  | some e' =>
    simp only [SubStream.pending]
    obtain ⟨hlt, hget⟩ := List.get?_eq_some.mp hg
    rw [List.drop_eq_get_cons hlt, hget]
  | none =>
    simp only [SubStream.pending]
    exact (List.drop_eq_nil_of_le (List.get?_eq_none.mp hg)).symm

theorem chain'_le_of_mem {a : ℤ} :
    ∀ {l : List ℤ}, List.Chain' (· ≤ ·) (a :: l) → ∀ x ∈ l, a ≤ x := by
  intro l
  induction l generalizing a with
  | nil =>
    intro _ x hx
    exact absurd hx (List.not_mem_nil x)
  | cons b l ih =>
    intro h x hx
    have hab : a ≤ b := (List.chain'_cons.mp h).1
    rcases List.mem_cons.mp hx with rfl | hx'
    · exact hab
    · exact le_trans hab (ih (List.chain'_cons.mp h).2 x hx')

theorem next_event_sorted_lb (m : MultiFiles) (v : ℤ) (m' : MultiFiles)
    (hs : m.Sorted) (h : m.next_event = some (v, m')) :
    m'.Sorted ∧ m'.LB v := by
  obtain ⟨i, st, hget, hb, hstreams, _, hmin, _⟩ := next_event_some m v m' h
  have hmem : st ∈ m.streams := List.get?_mem hget
  constructor
  · intro st' hst'
    rw [hstreams] at hst'
    rcases List.mem_or_eq_of_mem_set hst' with hmem' | heq
    · exact hs st' hmem'
    · subst heq
      have hp := hs st hmem
      rw [pending_of_buffered st v hb] at hp
      rw [advance_pending st]
      exact hp.tail
  · intro st' hst' x hx
    rw [hstreams] at hst'
    rcases List.mem_or_eq_of_mem_set hst' with hmem' | heq
    · cases hb' : st'.buffered with
      | none =>
        rw [SubStream.pending, hb'] at hx
        exact absurd hx (List.not_mem_nil x)
      | some b =>
        have hvb := hmin st' hmem' b hb'
        have hchain := hs st' hmem'
        rw [pending_of_buffered st' b hb'] at hx hchain
        rcases List.mem_cons.mp hx with rfl | hx'
        · exact hvb
        · exact le_trans hvb (chain'_le_of_mem hchain x hx')
    · subst heq
      rw [advance_pending st] at hx
      have hchain := hs st hmem
      rw [pending_of_buffered st v hb] at hchain
      exact chain'_le_of_mem hchain x hx

theorem next_event_lb_mono (m : MultiFiles) (u v : ℤ) (m' : MultiFiles)
    (hlb : m.LB u) (h : m.next_event = some (v, m')) :
    u ≤ v ∧ m'.LB u := by
  obtain ⟨i, st, hget, hb, hstreams, _, _, _⟩ := next_event_some m v m' h
  have hmem : st ∈ m.streams := List.get?_mem hget
  constructor
  · apply hlb st hmem
    rw [pending_of_buffered st v hb]
    exact List.mem_cons_self _ _
  · intro st' hst' x hx
    rw [hstreams] at hst'
    rcases List.mem_or_eq_of_mem_set hst' with hmem' | heq
    · exact hlb st' hmem' x hx
    · subst heq
      rw [advance_pending st] at hx
      apply hlb st hmem
      rw [pending_of_buffered st v hb]
      exact List.mem_cons_of_mem _ hx

theorem drain_lb (u : ℤ) :
    ∀ (fuel : ℕ) (m : MultiFiles), m.LB u → ∀ x ∈ m.drain fuel, u ≤ x := by
  intro fuel
  induction fuel with
  | zero =>
    intro m _ x hx
    simp [MultiFiles.drain] at hx
  | succ fuel ih =>
    intro m hlb x hx
    simp only [MultiFiles.drain] at hx
    cases hn : m.next_event with
    | none =>
      rw [hn] at hx
      exact absurd hx (List.not_mem_nil x)
    | some p =>
      rcases p with ⟨v, m'⟩
      rw [hn] at hx
      obtain ⟨huv, hlb'⟩ := next_event_lb_mono m u v m' hlb hn
      rcases List.mem_cons.mp hx with rfl | hx'
      · exact huv
      · exact ih m' hlb' x hx'

theorem drain_sorted (fuel : ℕ) :
    ∀ m : MultiFiles, m.Sorted → List.Chain' (· ≤ ·) (m.drain fuel) := by
  induction fuel with
  | zero =>
    intro m _
    simp [MultiFiles.drain]
  | succ fuel ih =>
    intro m hs
    simp only [MultiFiles.drain]
    cases hn : m.next_event with
    | none => simp
    | some p =>
      rcases p with ⟨v, m'⟩
      obtain ⟨hs', hlb⟩ := next_event_sorted_lb m v m' hs hn
      rw [List.chain'_cons']
      refine ⟨?_, ih m' hs'⟩
      intro y hy
      exact drain_lb v fuel m' hlb y (List.mem_of_mem_head? hy)

/-- C3: `next_event` signals end-of-stream exactly when no substream has a
buffered event; otherwise it returns the smallest buffered event id, taken
from the first substream attaining it (registration-order tie-break),
refilling that substream's buffer from its reader (dropping it when the
reader is exhausted); consequently, when every substream's pending
sequence is sorted, the merged output is non-decreasing in event id. -/
theorem C3_merge_order (m : MultiFiles) :
    (m.next_event = none ↔ ∀ st ∈ m.streams, st.buffered = none) ∧
    (∀ v m', m.next_event = some (v, m') →
      (∃ st ∈ m.streams, st.buffered = some v) ∧
      (∀ st ∈ m.streams, ∀ w, st.buffered = some w → v ≤ w) ∧
      (∃ i st, m.streams.get? i = some st ∧ st.buffered = some v ∧
        (∀ j, j < i → ∀ stj, m.streams.get? j = some stj →
          ∀ w, stj.buffered = some w → v < w) ∧
        m'.streams = m.streams.set i st.advance)) ∧
    (∀ fuel, m.Sorted → List.Chain' (· ≤ ·) (m.drain fuel)) := by
  refine ⟨next_event_none_iff m, ?_, fun fuel hs => drain_sorted fuel m hs⟩
  intro v m' h
  obtain ⟨i, st, hget, hb, hstreams, _, hmin, hfirst⟩ :=
    next_event_some m v m' h
  exact ⟨⟨st, List.get?_mem hget, hb⟩, hmin,
    ⟨i, st, hget, hb, hfirst, hstreams⟩⟩

/-- The three-substream example of the specification:
`{1,4,7}`, `{2,5,8}`, `{3,6,9}` (as produced by `MultiFiles.init`). -/
def mfEx3 : MultiFiles :=
  ⟨[⟨some 1, ⟨[1, 4, 7], some 0, 1⟩⟩, ⟨some 2, ⟨[2, 5, 8], none, 1⟩⟩,
    ⟨some 3, ⟨[3, 6, 9], some 5, 1⟩⟩], 0⟩

/-- Witness for C3: the three-substream example merges in sorted order. -/
theorem C3_witness :
    List.Chain' (· ≤ ·) (mfEx3.drain 20) ∧
    mfEx3.drain 20 = [1, 2, 3, 4, 5, 6, 7, 8, 9] :=
  ⟨(C3_merge_order mfEx3).2.2 20
    (by norm_num [MultiFiles.Sorted, mfEx3, SubStream.pending,
      List.chain'_cons]), by decide⟩

/-- The two-substream example `{1,4,7}`, `{2,5,8}` as produced by
`MultiFiles.init`. -/
def mfEx2 : MultiFiles :=
  ⟨[⟨some 1, ⟨[1, 4, 7], some 0, 1⟩⟩, ⟨some 2, ⟨[2, 5, 8], some 1, 1⟩⟩], 0⟩

/-- Counterexample to C7: after fully consuming the merged stream,
`rewind()` resets the cursors but does not re-prime the per-substream
buffers (`self._events` stays empty), so the second consumption yields the
empty sequence, not the original one. -/
theorem C7_counterexample :
    MultiFiles.init [([1, 4, 7], some 0), ([2, 5, 8], some 1)] =
      .ok mfEx2 ∧
    (mfEx2.drainAll 10).1 = [1, 2, 4, 5, 7, 8] ∧
    ((mfEx2.drainAll 10).2.rewind.drainAll 10).1 = [] ∧
    ((mfEx2.drainAll 10).2.rewind.drainAll 10).1 ≠ (mfEx2.drainAll 10).1 :=
  ⟨rfl, by decide, by decide, by decide⟩

/-- C7 (amended): `rewind` resets every substream's underlying cursor to
its start without reopening any file and without touching the buffered
events; since the buffers are not re-primed, a merger that has reached
end-of-stream still signals end-of-stream after `rewind`, so re-consuming
after a full consumption yields the empty sequence rather than the
original one. -/
theorem C7_rewind_no_reprime (m : MultiFiles) :
    (m.rewind.streams = m.streams.map fun st =>
      ⟨st.buffered, ⟨st.file.events, st.file.camera_config, 0⟩⟩) ∧
    (m.next_event = none → m.rewind.next_event = none) := by
  constructor
  · rfl
  · intro h
    rw [next_event_none_iff] at h ⊢
    intro st hst
    simp only [MultiFiles.rewind, List.mem_map] at hst
    obtain ⟨st0, hmem, rfl⟩ := hst
    exact h st0 hmem

/-- Witness for the amended C7 at the drained two-substream example. -/
theorem C7_witness :
    ((mfEx2.drainAll 10).2.rewind.streams =
      (mfEx2.drainAll 10).2.streams.map fun st =>
        ⟨st.buffered, ⟨st.file.events, st.file.camera_config, 0⟩⟩) ∧
    (mfEx2.drainAll 10).2.rewind.next_event = none := by
  have h := C7_rewind_no_reprime (mfEx2.drainAll 10).2
  exact ⟨h.1, h.2 (by decide)⟩

/-- Example construction inputs for the C8 witness. -/
def mfExPaths : List (List ℤ × Option ℤ) :=
  [([], some 3), ([1, 2], some 7), ([5], some 9)]

/-- The merger produced from `mfExPaths`: the empty first substream is
skipped, the canonical configuration is the second substream's. -/
def mfExInit : MultiFiles :=
  ⟨[⟨none, ⟨[], some 3, 0⟩⟩, ⟨some 1, ⟨[1, 2], some 7, 1⟩⟩,
    ⟨some 5, ⟨[5], some 9, 1⟩⟩], 7⟩

/-- Witness for C8: empty input, all-config-less input, and a successful
construction. -/
theorem C8_witness :
    MultiFiles.init ([] : List (List ℤ × Option ℤ)) = .error .emptyInput ∧
    MultiFiles.init [([], some 3), ([7], none)] =
      .error .configurationMissing ∧
    mfExInit.streams.length = mfExPaths.length := by
  refine ⟨(C8_construction []).1, ?_, ?_⟩
  · exact ((C8_construction [([], some 3), ([7], none)]).2.1
      (by decide)).mpr (by decide)
  · exact ((C8_construction mfExPaths).2.2 mfExInit rfl).1

end CtapipeIoLst
